import Mathlib

/-!
Verification of the crypto-wallet engine (rosahadi/crypto-wallet).

The repository's core operations are shallowly embedded here:
numeric encodings (`toMinimalBytes`), RLP, EIP-1559 transaction
construction, the encrypted store, the session-authentication state
machine, and the wallet facade operations.  Machine integers of the
TypeScript source are `Nat` (JavaScript `bigint` is arbitrary
precision); byte strings are `List Nat` with every element `< 256`;
fallible code returns `Except` or `Option`.  External cryptographic
primitives (Keccak-256, secp256k1, Argon2id, AES-GCM) are parameters
of the definitions, constrained only where a theorem needs their
contracts.
-/

namespace CryptoWallet

/-! ## Byte-string utilities (src/lib/utils: `toMinimalBytes`) -/

/-- Hex digits (base-16, most significant first) of `n`, as produced by
JavaScript `n.toString(16)` for `n > 0`; empty for `n = 0`. -/
def hexDigitsGo : Nat → Nat → List Nat
  | 0, _ => []
  | fuel + 1, n => if n = 0 then [] else hexDigitsGo fuel (n / 16) ++ [n % 16]

/-- Source `hexDigits n` is the base-16 digit string of `n`, MSB first. -/
def hexDigits (n : Nat) : List Nat := hexDigitsGo n n

/-- Source `hexToBytes` from the source: pairs consecutive hex digits into bytes,
failing (the source throws) on an odd-length digit string. -/
def hexToBytes : List Nat → Option (List Nat)
  | [] => some []
  | [_] => none
  | a :: b :: rest => (hexToBytes rest).map (fun bs => (16 * a + b) :: bs)

/-- Source `toMinimalBytes` from the source: zero becomes the empty byte string;
otherwise the hex string of the value, left-padded with a single `0` digit
to even length, is converted to bytes. -/
def toMinimalBytes (n : Nat) : List Nat :=
  if n = 0 then []
  else
    let hex := hexDigits n
    let hex2 := if hex.length % 2 = 1 then 0 :: hex else hex
    (hexToBytes hex2).getD []

/-- Big-endian value of a byte string. -/
def beVal (bs : List Nat) : Nat := bs.foldl (fun acc b => 256 * acc + b) 0

/-- Base-16 value of a digit string, MSB first. -/
def hexVal (ds : List Nat) : Nat := ds.foldl (fun acc d => 16 * acc + d) 0

theorem hexDigitsGo_eval (fuel n : Nat) (h : n ≤ fuel) :
    hexVal (hexDigitsGo fuel n) = n := by
  induction fuel generalizing n with
  | zero => interval_cases n; simp [hexDigitsGo, hexVal]
  | succ fuel ih =>
    by_cases hn : n = 0
    · simp [hexDigitsGo, hn, hexVal]
    · have hdiv : n / 16 ≤ fuel := by
        have : n / 16 < n := Nat.div_lt_self (Nat.pos_of_ne_zero hn) (by norm_num)
        omega
      have hrec := ih (n / 16) hdiv
      simp only [hexDigitsGo, hn, if_false]
      unfold hexVal at hrec ⊢
      rw [List.foldl_append]
      simp only [List.foldl_cons, List.foldl_nil]
      rw [hrec]
      omega

theorem hexVal_hexDigits (n : Nat) : hexVal (hexDigits n) = n :=
  hexDigitsGo_eval n n le_rfl

theorem hexDigitsGo_ne_nil (fuel n : Nat) (h : n ≤ fuel) (hn : n ≠ 0) :
    hexDigitsGo fuel n ≠ [] := by
  cases fuel with
  | zero => omega
  | succ fuel => simp [hexDigitsGo, hn]

theorem hexDigitsGo_head_ne_zero (fuel n : Nat) (h : n ≤ fuel) (hn : n ≠ 0) :
    ∀ d ds, hexDigitsGo fuel n = d :: ds → d ≠ 0 := by
  induction fuel generalizing n with
  | zero => omega
  | succ fuel ih =>
    intro d ds hEq
    simp only [hexDigitsGo, hn, if_false] at hEq
    by_cases hq : n / 16 = 0
    · have hlt : n < 16 := by omega
      simp [hexDigitsGo, hq] at hEq
      rcases fuel with _ | fuel <;> simp [hexDigitsGo, hq] at hEq <;>
        · obtain ⟨hd, _⟩ := hEq
          omega
    · have hdiv : n / 16 ≤ fuel := by
        have : n / 16 < n := Nat.div_lt_self (Nat.pos_of_ne_zero hn) (by norm_num)
        omega
      obtain ⟨e, es, hcons⟩ := List.exists_cons_of_ne_nil (hexDigitsGo_ne_nil fuel (n / 16) hdiv hq)
      rw [hcons] at hEq
      simp at hEq
      obtain ⟨hd, _⟩ := hEq
      subst hd
      exact ih (n / 16) hdiv hq e es hcons

theorem hexDigitsGo_lt_16 (fuel n : Nat) : ∀ d ∈ hexDigitsGo fuel n, d < 16 := by
  induction fuel generalizing n with
  | zero => simp [hexDigitsGo]
  | succ fuel ih =>
    intro d hd
    simp only [hexDigitsGo] at hd
    split at hd
    · simp at hd
    · rw [List.mem_append] at hd
      rcases hd with hd | hd
      · exact ih (n / 16) d hd
      · simp at hd
        omega

/-- Source `hexToBytes` succeeds exactly on even-length digit strings. -/
theorem hexToBytes_even (ds : List Nat) (h : ds.length % 2 = 0) :
    ∃ bs, hexToBytes ds = some bs := by
  induction ds using hexToBytes.induct with
  | case1 => exact ⟨[], rfl⟩
  | case2 a => simp at h
  | case3 a b rest ih =>
    simp only [List.length_cons] at h
    obtain ⟨bs, hbs⟩ := ih (by omega)
    exact ⟨(16 * a + b) :: bs, by simp [hexToBytes, hbs]⟩

theorem hexToBytes_beVal (ds bs : List Nat) (h : hexToBytes ds = some bs) :
    beVal bs = hexVal ds ∧ bs.length * 2 = ds.length := by
  induction ds using hexToBytes.induct generalizing bs with
  | case1 =>
    simp [hexToBytes] at h
    subst h
    simp [beVal, hexVal]
  | case2 a => simp [hexToBytes] at h
  | case3 a b rest ih =>
    simp only [hexToBytes, Option.map_eq_some'] at h
    obtain ⟨bs', hbs', hcons⟩ := h
    subst hcons
    obtain ⟨hval, hlen⟩ := ih bs' hbs'
    constructor
    · have key : ∀ (l : List Nat) (acc : Nat),
          l.foldl (fun acc b => 256 * acc + b) acc =
          acc * 256 ^ l.length + l.foldl (fun acc b => 256 * acc + b) 0 := by
        intro l
        induction l with
        | nil => simp
        | cons x xs ihl =>
          intro acc
          simp only [List.foldl_cons, List.length_cons]
          rw [ihl (256 * acc + x), ihl (256 * 0 + x)]
          ring
      have key16 : ∀ (l : List Nat) (acc : Nat),
          l.foldl (fun acc d => 16 * acc + d) acc =
          acc * 16 ^ l.length + l.foldl (fun acc d => 16 * acc + d) 0 := by
        intro l
        induction l with
        | nil => simp
        | cons x xs ihl =>
          intro acc
          simp only [List.foldl_cons, List.length_cons]
          rw [ihl (16 * acc + x), ihl (16 * 0 + x)]
          ring
      unfold beVal hexVal at hval ⊢
      simp only [List.foldl_cons]
      rw [key bs' (256 * 0 + (16 * a + b)), key16 rest (16 * (16 * 0 + a) + b), hval]
      have h2 : (16 : Nat) ^ rest.length = 16 ^ (bs'.length * 2) := by rw [hlen]
      rw [h2]
      have h3 : (16 : Nat) ^ (bs'.length * 2) = 256 ^ bs'.length := by
        rw [mul_comm, pow_mul]
        norm_num
      rw [h3]
      ring
    · simp only [List.length_cons]
      omega

/-- The digit string fed to `hexToBytes` inside `toMinimalBytes` has even
length, so the conversion always succeeds. -/
theorem toMinimalBytes_some (n : Nat) (hn : n ≠ 0) :
    ∃ bs, hexToBytes (if (hexDigits n).length % 2 = 1 then 0 :: hexDigits n
          else hexDigits n) = some bs ∧ toMinimalBytes n = bs := by
  set ds := if (hexDigits n).length % 2 = 1 then 0 :: hexDigits n else hexDigits n with hds
  have heven : ds.length % 2 = 0 := by
    by_cases h : (hexDigits n).length % 2 = 1 <;> simp [hds, h] <;> omega
  obtain ⟨bs, hbs⟩ := hexToBytes_even ds heven
  exact ⟨bs, hbs, by simp [toMinimalBytes, hn, ← hds, hbs]⟩

theorem hexVal_cons_zero (ds : List Nat) : hexVal (0 :: ds) = hexVal ds := by
  simp [hexVal]

theorem hexToBytes_lt_256 (ds bs : List Nat) (h : hexToBytes ds = some bs)
    (hd : ∀ d ∈ ds, d < 16) : ∀ b ∈ bs, b < 256 := by
  induction ds using hexToBytes.induct generalizing bs with
  | case1 =>
    simp [hexToBytes] at h
    subst h
    simp
  | case2 a => simp [hexToBytes] at h
  | case3 a b rest ih =>
    simp only [hexToBytes, Option.map_eq_some'] at h
    obtain ⟨bs', hbs', hcons⟩ := h
    subst hcons
    intro x hx
    simp only [List.mem_cons] at hx
    rcases hx with hx | hx
    · have ha : a < 16 := hd a (by simp)
      have hb : b < 16 := hd b (by simp)
      omega
    · exact ih bs' hbs' (fun d hdm => hd d (by simp [hdm])) x hx

theorem beVal_toMinimalBytes (n : Nat) : beVal (toMinimalBytes n) = n := by
  by_cases hn : n = 0
  · simp [toMinimalBytes, hn, beVal]
  · obtain ⟨bs, hbs, heq⟩ := toMinimalBytes_some n hn
    rw [heq]
    have := (hexToBytes_beVal _ bs hbs).1
    rw [this]
    by_cases hodd : (hexDigits n).length % 2 = 1
    · simp only [hodd, reduceIte]
      rw [hexVal_cons_zero]
      exact hexVal_hexDigits n
    · simp only [hodd, reduceIte]
      exact hexVal_hexDigits n

theorem toMinimalBytes_head_ne_zero (n : Nat) (hn : n ≠ 0) :
    ∀ b bs, toMinimalBytes n = b :: bs → b ≠ 0 := by
  intro b bs hEq
  obtain ⟨d, ds, hds⟩ := List.exists_cons_of_ne_nil (hexDigitsGo_ne_nil n n le_rfl hn)
  have hdne : d ≠ 0 := hexDigitsGo_head_ne_zero n n le_rfl hn d ds hds
  have hds' : hexDigits n = d :: ds := hds
  obtain ⟨bs0, hbs0, heq0⟩ := toMinimalBytes_some n hn
  rw [heq0] at hEq
  subst hEq
  by_cases hodd : (hexDigits n).length % 2 = 1
  · -- padded with a leading zero digit: first byte is 16*0 + d = d
    rw [if_pos hodd, hds'] at hbs0
    simp only [hexToBytes, Option.map_eq_some'] at hbs0
    obtain ⟨bs', _, hcons⟩ := hbs0
    simp at hcons
    omega
  · -- even length: first byte is 16*d + d₂ with d ≠ 0
    have hlen : (hexDigits n).length % 2 = 0 := by omega
    rw [hds'] at hlen
    simp only [List.length_cons] at hlen
    obtain ⟨d2, ds2, hds2⟩ : ∃ d2 ds2, ds = d2 :: ds2 := by
      cases ds with
      | nil => simp at hlen
      | cons d2 ds2 => exact ⟨d2, ds2, rfl⟩
    rw [if_neg hodd, hds', hds2] at hbs0
    simp only [hexToBytes, Option.map_eq_some'] at hbs0
    obtain ⟨bs', _, hcons⟩ := hbs0
    simp at hcons
    omega

theorem toMinimalBytes_bytes_lt (n : Nat) : ∀ b ∈ toMinimalBytes n, b < 256 := by
  by_cases hn : n = 0
  · simp [toMinimalBytes, hn]
  · obtain ⟨bs, hbs, heq⟩ := toMinimalBytes_some n hn
    rw [heq]
    refine hexToBytes_lt_256 _ bs hbs ?_
    intro d hd
    by_cases hodd : (hexDigits n).length % 2 = 1 <;> simp only [hodd, reduceIte] at hd
    · simp only [List.mem_cons] at hd
      rcases hd with hd | hd
      · omega
      · exact hexDigitsGo_lt_16 n n d hd
    · exact hexDigitsGo_lt_16 n n d hd

/-- C2: `toMinimalBytes` maps every non-negative integer to its minimal
big-endian byte representation — the bytes evaluate back to the integer and
the leading byte is never zero, which together determine the representation
uniquely — maps zero to the empty byte string, and in particular sends 0 to
`[]`, 255 to `[0xFF]` and 256 to `[0x01, 0x00]`. -/
theorem toMinimalBytes_minimal :
    (∀ n : Nat,
      beVal (toMinimalBytes n) = n ∧
      (n ≠ 0 → ∀ b bs, toMinimalBytes n = b :: bs → b ≠ 0) ∧
      (∀ b ∈ toMinimalBytes n, b < 256)) ∧
    toMinimalBytes 0 = [] ∧
    toMinimalBytes 255 = [0xFF] ∧
    toMinimalBytes 256 = [0x01, 0x00] := by
  refine ⟨fun n => ⟨beVal_toMinimalBytes n, fun hn => toMinimalBytes_head_ne_zero n hn,
    toMinimalBytes_bytes_lt n⟩, by decide, by decide, by decide⟩

/-! ## RLP encoding (the `@ethereumjs/rlp` encoder used by the source) -/

/-- An RLP input item: a byte string, or a list of items. -/
inductive RLPItem where
  | bytes (bs : List Nat) : RLPItem
  | list (items : List RLPItem) : RLPItem

/-- RLP length prefix: short form for payloads under 56 bytes, long form
(length-of-length byte followed by the big-endian length) otherwise. -/
def rlpLenPrefix (offset len : Nat) : List Nat :=
  if len < 56 then [offset + len]
  else (offset + 55 + (toMinimalBytes len).length) :: toMinimalBytes len

mutual

/-- RLP encoding of an item: a single byte below `0x80` stands for itself;
other byte strings and lists get a length prefix. -/
def rlpEncode : RLPItem → List Nat
  | .bytes bs =>
    match bs with
    | [b] => if b < 0x80 then [b] else rlpLenPrefix 0x80 1 ++ [b]
    | _ => rlpLenPrefix 0x80 bs.length ++ bs
  | .list items =>
    let payload := rlpEncodeList items
    rlpLenPrefix 0xc0 payload.length ++ payload

/-- Concatenated RLP encodings of a list of items. -/
def rlpEncodeList : List RLPItem → List Nat
  | [] => []
  | item :: rest => rlpEncode item ++ rlpEncodeList rest

end

/-! ## Hex rendering of byte strings (`bytesToHex` from `@noble/hashes`) -/

/-- One lowercase hex character for a digit value. -/
def hexChar (d : Nat) : Char :=
  if d < 10 then Char.ofNat (48 + d) else Char.ofNat (87 + d)

/-- Lowercase hex rendering of a byte string, two characters per byte. -/
def bytesToHex (bs : List Nat) : String :=
  String.mk (bs.foldr (fun b acc => hexChar (b / 16) :: hexChar (b % 16) :: acc) [])

/-! ## TransactionService (`TransactionApiService.ts`)

The JSON-RPC collaborator is an oracle: each field holds the result the node
would return for the corresponding method, `none` meaning the call throws.
Keccak-256 and secp256k1 signing are parameters of the transaction builder.
-/

/-- Block tag passed to JSON-RPC read methods. -/
inductive BlockTag where
  | latest
  | pending
deriving DecidableEq

/-- Fee data returned by `getFeeData`. -/
structure FeeData where
  maxFeePerGas : Nat
  maxPriorityFeePerGas : Nat
deriving DecidableEq, Repr

/-- Response of `eth_feeHistory` as consumed by the source. -/
structure FeeHistory where
  baseFeePerGas : List Nat
  reward : List (List Nat)

/-- The node as seen by `TransactionService`. -/
structure RpcOracle where
  gasPrice : Option Nat
  feeHistory : Option FeeHistory
  gasEstimate : Option Nat
  transactionCount : String → BlockTag → Nat
  balance : String → Nat
  sendRaw : Option String

/-- Error taxonomy surfaced by the transaction engine. -/
inductive TxError where
  | rpc (method : String) : TxError
  | insufficientFunds (available required shortfall : Nat) : TxError
deriving DecidableEq, Repr

/-- JavaScript `x || y` on `bigint`-valued optionals: `0n` is falsy, so a
supplied zero falls through to the default, as does an absent value. -/
def jsOrNat (v : Option Nat) (d : Nat) : Nat :=
  match v with
  | some n => if n = 0 then d else n
  | none => d

/-- Source `getGasPrice`: single `eth_gasPrice` read. -/
def getGasPrice (o : RpcOracle) : Except TxError Nat :=
  match o.gasPrice with
  | some g => .ok g
  | none => .error (.rpc "eth_gasPrice")

/-- The `catch` branch of `getFeeData`: legacy gas price, split between the
max fee (the whole price) and the priority fee (half of it). -/
def getFeeDataFallback (o : RpcOracle) : Except TxError FeeData :=
  match getGasPrice o with
  | .ok g => .ok ⟨g, g / 2⟩
  | .error e => .error e

/-- Source `getFeeData`: `eth_feeHistory [4, "latest", [25, 75]]`, taking
`baseFeePerGas[0]` and `reward[0][1]` and computing
`baseFee * 120 / 100 + priorityFee`; any failure inside the `try` falls back
to the legacy gas price. -/
def getFeeData (o : RpcOracle) : Except TxError FeeData :=
  match o.feeHistory with
  | some fh =>
    match fh.baseFeePerGas.get? 0, (fh.reward.get? 0).bind (fun r => r.get? 1) with
    | some baseFee, some priorityFee =>
      .ok ⟨baseFee * 120 / 100 + priorityFee, priorityFee⟩
    | _, _ => getFeeDataFallback o
  | none => getFeeDataFallback o

/-- Source `estimateGas`: RPC estimate scaled by 120 / 100; on failure 100000 for
data-carrying calls, 21000 for plain transfers. Never throws. -/
def estimateGas (o : RpcOracle) (data : List Nat) : Nat :=
  match o.gasEstimate with
  | some g => g * 120 / 100
  | none => if data ≠ [] then 100000 else 21000

/-- Source `getNextNonce`: `eth_getTransactionCount` of the lowercased address at
the `"latest"` block tag. -/
def getNextNonce (o : RpcOracle) (address : String) : Nat :=
  o.transactionCount address.toLower BlockTag.latest

/-- Source `getBalance`: `eth_getBalance` of the lowercased address. -/
def getBalance (o : RpcOracle) (address : String) : Nat :=
  o.balance address.toLower

/-- Nonce resolution inside `createEIP1559Transaction`:
`nonce !== undefined ? nonce : await this.getNextNonce(fromAddress)` —
an explicit undefined check, so a supplied `0` is used unchanged. -/
def resolvedNonce (o : RpcOracle) (fromAddress : String) (nonce : Option Nat) : Nat :=
  match nonce with
  | some n => n
  | none => getNextNonce o fromAddress

/-- Parameters of `createEIP1559Transaction`; the recipient (the source's
`to` field) and the calldata hex strings are modelled as their decoded byte
strings. -/
structure TransactionParams where
  recipient : List Nat
  value : Nat
  data : List Nat := []
  gasLimit : Option Nat := none
  nonce : Option Nat := none
  maxFeePerGas : Option Nat := none
  maxPriorityFeePerGas : Option Nat := none

/-- An ECDSA signature as produced by `secp256k1.sign`: `r`, `s` and the
recovery bit. -/
structure EcdsaSig where
  r : Nat
  s : Nat
  recovery : Nat

/-- Source `createEIP1559Transaction`: resolves fees, gas limit and nonce, builds
the nine-field EIP-1559 payload, RLP-encodes it, prefixes the type byte
`0x02`, hashes with `keccak`, signs, appends `yParity`, `r`, `s`, re-encodes
with the same type prefix, and renders as a `0x`-prefixed hex string. -/
def createEIP1559Transaction (o : RpcOracle) (chainId : Nat)
    (keccak : List Nat → List Nat) (sign : List Nat → List Nat → EcdsaSig)
    (privateKey : List Nat) (fromAddress : String) (params : TransactionParams) :
    Except TxError String := do
  let feeData ← getFeeData o
  let actualMaxFeePerGas := jsOrNat params.maxFeePerGas feeData.maxFeePerGas
  let actualMaxPriorityFeePerGas :=
    jsOrNat params.maxPriorityFeePerGas feeData.maxPriorityFeePerGas
  let actualGasLimit := jsOrNat params.gasLimit (estimateGas o params.data)
  let actualNonce := resolvedNonce o fromAddress params.nonce
  let chainIdBytes := toMinimalBytes chainId
  let nonceBytes := toMinimalBytes actualNonce
  let maxPriorityFeePerGasBytes := toMinimalBytes actualMaxPriorityFeePerGas
  let maxFeePerGasBytes := toMinimalBytes actualMaxFeePerGas
  let gasLimitBytes := toMinimalBytes actualGasLimit
  let recipientBytes := params.recipient
  let valueBytes := toMinimalBytes params.value
  let dataBytes := params.data
  let txPayload : List RLPItem := [
    .bytes chainIdBytes, .bytes nonceBytes, .bytes maxPriorityFeePerGasBytes,
    .bytes maxFeePerGasBytes, .bytes gasLimitBytes, .bytes recipientBytes,
    .bytes valueBytes, .bytes dataBytes, .list []]
  let encodedTx := rlpEncode (.list txPayload)
  let typedTx := 0x02 :: encodedTx
  let txHash := keccak typedTx
  let signature := sign txHash privateKey
  let rBytes := toMinimalBytes signature.r
  let sBytes := toMinimalBytes signature.s
  let yParity := toMinimalBytes signature.recovery
  let signedPayload : List RLPItem := [
    .bytes chainIdBytes, .bytes nonceBytes, .bytes maxPriorityFeePerGasBytes,
    .bytes maxFeePerGasBytes, .bytes gasLimitBytes, .bytes recipientBytes,
    .bytes valueBytes, .bytes dataBytes, .list [],
    .bytes yParity, .bytes rBytes, .bytes sBytes]
  let signedEncodedTx := rlpEncode (.list signedPayload)
  return "0x" ++ bytesToHex (0x02 :: signedEncodedTx)

/-- Source `validateFunds`: compares the balance against
`value + actualMaxFeePerGas * actualGasLimit`, with defaults resolved by
JavaScript `||` (gas limit default 21000, max fee default from fee data). -/
def validateFunds (o : RpcOracle) (address : String) (value : Nat)
    (gasLimit maxFeePerGas : Option Nat) : Except TxError Unit := do
  let balance := getBalance o address
  let feeData ← getFeeData o
  let actualMaxFeePerGas := jsOrNat maxFeePerGas feeData.maxFeePerGas
  let actualGasLimit := jsOrNat gasLimit 21000
  let totalMaxCost := value + actualMaxFeePerGas * actualGasLimit
  if balance < totalMaxCost then
    .error (.insufficientFunds balance totalMaxCost (totalMaxCost - balance))
  else
    .ok ()

/-! ## RPC-call traces of the send path

`ExtendedCryptoWallet.sendEth` runs `validateFunds`, then
`createEIP1559Transaction`, then `sendRawTransaction`.  To state the
"no broadcast before the funds check" and "no RPC before the session
gate" claims, each step's JSON-RPC method calls are recorded. -/

/-- Methods called by one `getFeeData` evaluation. -/
def feeCalls (o : RpcOracle) : List String :=
  match o.feeHistory with
  | some fh =>
    match fh.baseFeePerGas.get? 0, (fh.reward.get? 0).bind (fun r => r.get? 1) with
    | some _, some _ => ["eth_feeHistory"]
    | _, _ => ["eth_feeHistory", "eth_gasPrice"]
  | none => ["eth_feeHistory", "eth_gasPrice"]

/-- Methods called by one `validateFunds` evaluation. -/
def validateFundsCalls (o : RpcOracle) : List String :=
  "eth_getBalance" :: feeCalls o

theorem feeCalls_cases (o : RpcOracle) :
    feeCalls o = ["eth_feeHistory"] ∨ feeCalls o = ["eth_feeHistory", "eth_gasPrice"] := by
  unfold feeCalls
  split
  · split
    · exact Or.inl rfl
    · exact Or.inr rfl
  · exact Or.inr rfl

/-- Methods called by one `createEIP1559Transaction` evaluation: fee data,
then a gas estimate when the caller supplied no (or a zero) gas limit, then
the transaction count when the caller supplied no nonce. -/
def createCalls (o : RpcOracle) (params : TransactionParams) : List String :=
  feeCalls o ++
    (match params.gasLimit with
     | some g => if g = 0 then ["eth_estimateGas"] else []
     | none => ["eth_estimateGas"]) ++
    (match params.nonce with
     | some _ => []
     | none => ["eth_getTransactionCount"])

/-- Source `ExtendedCryptoWallet.sendEth`: funds validation, then signing, then
broadcast, paired with the list of RPC methods called. -/
def extSendEth (o : RpcOracle) (chainId : Nat) (keccak : List Nat → List Nat)
    (sign : List Nat → List Nat → EcdsaSig) (privateKey : List Nat)
    (fromAddress : String) (recipient : List Nat) (value : Nat) :
    Except TxError String × List String :=
  let params : TransactionParams := { recipient := recipient, value := value }
  match validateFunds o fromAddress value none none with
  | .error e => (.error e, validateFundsCalls o)
  | .ok () =>
    match createEIP1559Transaction o chainId keccak sign privateKey fromAddress params with
    | .error e => (.error e, validateFundsCalls o ++ createCalls o params)
    | .ok _signedTx =>
      match o.sendRaw with
      | some txHash =>
        (.ok txHash, validateFundsCalls o ++ createCalls o params ++ ["eth_sendRawTransaction"])
      | none =>
        (.error (.rpc "eth_sendRawTransaction"),
          validateFundsCalls o ++ createCalls o params ++ ["eth_sendRawTransaction"])

/-! ## Claims C1, C4, C7, C8 -/

/-- C1: every transaction built by `createEIP1559Transaction` consists of the
RLP encoding of the nine-element list
`[chainId, nonce, maxPriorityFeePerGas, maxFeePerGas, gasLimit, to, value,
data, accessList=[]]` prefixed with the type byte `0x02`; the signing hash is
Keccak-256 of that type-prefixed encoding; and the returned hex string is the
RLP encoding of the same nine fields with `yParity`, `r`, `s` appended
(twelve elements), again prefixed with `0x02`. -/
theorem createEIP1559_structure (o : RpcOracle) (chainId : Nat)
    (keccak : List Nat → List Nat) (sign : List Nat → List Nat → EcdsaSig)
    (privateKey : List Nat) (fromAddress : String) (params : TransactionParams)
    (fd : FeeData) (h : getFeeData o = .ok fd) :
    createEIP1559Transaction o chainId keccak sign privateKey fromAddress params =
      let fields : List RLPItem := [
        .bytes (toMinimalBytes chainId),
        .bytes (toMinimalBytes (resolvedNonce o fromAddress params.nonce)),
        .bytes (toMinimalBytes (jsOrNat params.maxPriorityFeePerGas fd.maxPriorityFeePerGas)),
        .bytes (toMinimalBytes (jsOrNat params.maxFeePerGas fd.maxFeePerGas)),
        .bytes (toMinimalBytes (jsOrNat params.gasLimit (estimateGas o params.data))),
        .bytes params.recipient,
        .bytes (toMinimalBytes params.value),
        .bytes params.data,
        .list []]
      let signingHash := keccak (0x02 :: rlpEncode (.list fields))
      let sig := sign signingHash privateKey
      .ok ("0x" ++ bytesToHex (0x02 :: rlpEncode (.list (fields ++ [
        .bytes (toMinimalBytes sig.recovery),
        .bytes (toMinimalBytes sig.r),
        .bytes (toMinimalBytes sig.s)])))) := by
  simp only [createEIP1559Transaction, h, bind, Except.bind]
  rfl

/-- Witness for `createEIP1559_structure` at a concrete oracle and toy
hash/signature functions. -/
theorem createEIP1559_structure_witness :
    getFeeData ⟨some 50, some ⟨[10], [[1, 2]]⟩, some 100, fun _ _ => 7, fun _ => 0, none⟩ =
      .ok ⟨10 * 120 / 100 + 2, 2⟩ ∧
    createEIP1559Transaction
      ⟨some 50, some ⟨[10], [[1, 2]]⟩, some 100, fun _ _ => 7, fun _ => 0, none⟩
      1 (fun l => l) (fun _ _ => ⟨1, 2, 0⟩) [9] "0xabc" ⟨[0xde], 5, [], none, none, none, none⟩ =
      let fields : List RLPItem := [
        .bytes (toMinimalBytes 1),
        .bytes (toMinimalBytes (resolvedNonce
          ⟨some 50, some ⟨[10], [[1, 2]]⟩, some 100, fun _ _ => 7, fun _ => 0, none⟩ "0xabc" none)),
        .bytes (toMinimalBytes (jsOrNat none 2)),
        .bytes (toMinimalBytes (jsOrNat none (10 * 120 / 100 + 2))),
        .bytes (toMinimalBytes (jsOrNat none (estimateGas
          ⟨some 50, some ⟨[10], [[1, 2]]⟩, some 100, fun _ _ => 7, fun _ => 0, none⟩ []))),
        .bytes [0xde],
        .bytes (toMinimalBytes 5),
        .bytes ([] : List Nat),
        .list []]
      let signingHash := (fun (l : List Nat) => l) (0x02 :: rlpEncode (.list fields))
      let sig := (fun (_ : List Nat) (_ : List Nat) => (⟨1, 2, 0⟩ : EcdsaSig)) signingHash [9]
      .ok ("0x" ++ bytesToHex (0x02 :: rlpEncode (.list (fields ++ [
        .bytes (toMinimalBytes sig.recovery),
        .bytes (toMinimalBytes sig.r),
        .bytes (toMinimalBytes sig.s)])))) := by
  refine ⟨by rfl, ?_⟩
  exact createEIP1559_structure _ 1 (fun l => l) (fun _ _ => ⟨1, 2, 0⟩) [9] "0xabc"
    ⟨[0xde], 5, [], none, none, none, none⟩ ⟨10 * 120 / 100 + 2, 2⟩ (by rfl)

/-- C7 counterexample: the claim says nonce resolution reads the transaction
count at the `"pending"` block tag, but `getNextNonce` passes `"latest"`; on
a node whose pending count (6) differs from its latest count (5), the
resolved nonce is 5, not 6. -/
theorem getNextNonce_not_pending :
    getNextNonce ⟨none, none, none,
        (fun _ tag => match tag with | BlockTag.latest => 5 | BlockTag.pending => 6),
        fun _ => 0, none⟩ "0xAbC" = 5 ∧
    (RpcOracle.transactionCount ⟨none, none, none,
        (fun _ tag => match tag with | BlockTag.latest => 5 | BlockTag.pending => 6),
        fun _ => 0, none⟩) "0xabc" BlockTag.pending = 6 := by
  exact ⟨rfl, rfl⟩

/-- C7 (amended): nonce resolution reads the RPC transaction count of the
lowercased sender at the `"latest"` block tag when the caller supplies no
nonce; a caller-supplied nonce (including `0`) is used unchanged. -/
theorem nonce_resolution (o : RpcOracle) (addr : String) (n : Nat) :
    getNextNonce o addr = o.transactionCount addr.toLower BlockTag.latest ∧
    resolvedNonce o addr (some n) = n ∧
    resolvedNonce o addr none = getNextNonce o addr :=
  ⟨rfl, rfl, rfl⟩

/-- C8 counterexample: when both `eth_feeHistory` and the fallback
`eth_gasPrice` fail, `getFeeData` throws to its caller, refuting
"never throws". -/
theorem getFeeData_throws :
    getFeeData ⟨none, none, none, fun _ _ => 0, fun _ => 0, none⟩ =
      .error (.rpc "eth_gasPrice") := rfl

/-- C8 (amended): whenever the legacy `eth_gasPrice` read succeeds,
`getFeeData` returns a usable estimate; on a well-formed fee history it is
`⟨baseFee * 120 / 100 + priorityFee, priorityFee⟩` from the 4-block window's
`baseFeePerGas[0]` and 75th-percentile reward `reward[0][1]`, and when the
fee-history call fails it is the gas price split as `⟨g, g / 2⟩`. -/
theorem getFeeData_spec (o : RpcOracle) (g : Nat) (hg : o.gasPrice = some g) :
    (∃ fd, getFeeData o = .ok fd) ∧
    (∀ fh baseFee priorityFee, o.feeHistory = some fh →
      fh.baseFeePerGas.get? 0 = some baseFee →
      (fh.reward.get? 0).bind (fun r => r.get? 1) = some priorityFee →
      getFeeData o = .ok ⟨baseFee * 120 / 100 + priorityFee, priorityFee⟩) ∧
    (o.feeHistory = none → getFeeData o = .ok ⟨g, g / 2⟩) := by
  refine ⟨?_, ?_, ?_⟩
  · unfold getFeeData getFeeDataFallback getGasPrice
    rcases o.feeHistory with _ | fh
    · rw [hg]
      exact ⟨_, rfl⟩
    · rcases hb : fh.baseFeePerGas.get? 0 with _ | b <;>
        rcases hr : (fh.reward.get? 0).bind (fun r => r.get? 1) with _ | p <;>
        simp only [hb, hr, hg] <;> exact ⟨_, rfl⟩
  · intro fh baseFee priorityFee hfh hb hr
    unfold getFeeData
    simp only [hfh]
    rw [hb, hr]
  · intro hfh
    unfold getFeeData getFeeDataFallback getGasPrice
    rw [hfh, hg]

/-- Witness for `getFeeData_spec` at a concrete oracle. -/
theorem getFeeData_spec_witness :
    (RpcOracle.gasPrice ⟨some 40, none, none, fun _ _ => 0, fun _ => 0, none⟩ = some 40) ∧
    ((∃ fd, getFeeData ⟨some 40, none, none, fun _ _ => 0, fun _ => 0, none⟩ = .ok fd) ∧
     (∀ fh baseFee priorityFee,
        RpcOracle.feeHistory ⟨some 40, none, none, fun _ _ => 0, fun _ => 0, none⟩ = some fh →
        fh.baseFeePerGas.get? 0 = some baseFee →
        (fh.reward.get? 0).bind (fun r => r.get? 1) = some priorityFee →
        getFeeData ⟨some 40, none, none, fun _ _ => 0, fun _ => 0, none⟩ =
          .ok ⟨baseFee * 120 / 100 + priorityFee, priorityFee⟩) ∧
     (RpcOracle.feeHistory ⟨some 40, none, none, fun _ _ => 0, fun _ => 0, none⟩ = none →
        getFeeData ⟨some 40, none, none, fun _ _ => 0, fun _ => 0, none⟩ = .ok ⟨40, 20⟩)) :=
  ⟨rfl, getFeeData_spec _ 40 rfl⟩

/-- C4 counterexample: the claim's inequality
`balance < value + gasLimit * maxFeePerGas` predicts success for a supplied
zero gas limit (`100 < 100 + 0 * 1` is false), but JavaScript `||` treats
`0n` as absent, so the code checks against the default 21000 gas and fails. -/
theorem validateFunds_zero_gasLimit :
    (validateFunds ⟨some 2, none, none, fun _ _ => 0, fun _ => 100, none⟩
        "0xa" 100 (some 0) (some 1)).isOk = false ∧
    ¬ (100 < 100 + 0 * 1) := by
  constructor
  · rfl
  · omega

/-- C4 (amended): `validateFunds` fails with `InsufficientFunds` carrying
available, required and shortfall amounts exactly when
`balance < value + effFee * effGas`, where the effective gas limit and max
fee are resolved by JavaScript `||` (an absent or zero gas limit becomes
21000, an absent or zero max fee becomes the fee-data estimate); at exact
equality it succeeds; and in the send path (`sendEth`) the funds check
precedes broadcast: when it fails, no `eth_sendRawTransaction` call is
made. -/
theorem validateFunds_gate (o : RpcOracle) (addr : String) (value : Nat)
    (gl mf : Option Nat) (fd : FeeData) (h : getFeeData o = .ok fd) :
    (getBalance o addr < value + jsOrNat mf fd.maxFeePerGas * jsOrNat gl 21000 →
      validateFunds o addr value gl mf =
        .error (.insufficientFunds (getBalance o addr)
          (value + jsOrNat mf fd.maxFeePerGas * jsOrNat gl 21000)
          (value + jsOrNat mf fd.maxFeePerGas * jsOrNat gl 21000 - getBalance o addr))) ∧
    (value + jsOrNat mf fd.maxFeePerGas * jsOrNat gl 21000 ≤ getBalance o addr →
      validateFunds o addr value gl mf = .ok ()) ∧
    (∀ chainId keccak sign privateKey recipient,
      validateFunds o addr value none none ≠ .ok () →
      "eth_sendRawTransaction" ∉
        (extSendEth o chainId keccak sign privateKey addr recipient value).2) := by
  refine ⟨?_, ?_, ?_⟩
  · intro hlt
    unfold validateFunds
    simp only [h, bind, Except.bind]
    rw [if_pos hlt]
  · intro hge
    unfold validateFunds
    simp only [h, bind, Except.bind]
    rw [if_neg (by omega)]
  · intro chainId keccak sign privateKey recipient hfail
    unfold extSendEth
    rcases hv : validateFunds o addr value none none with e | u
    · simp only [hv]
      unfold validateFundsCalls
      rcases feeCalls_cases o with hfc | hfc <;> rw [hfc] <;> simp
    · exact absurd (by rw [hv]) hfail

/-- Witness for `validateFunds_gate`: balance 30, value 9, supplied gas
limit 2 and max fee 10 give required cost 29 ≤ 30, so the check passes; at
balance 30 and value 10 the boundary 30 = 10 + 10 * 2 also passes. -/
theorem validateFunds_gate_witness :
    (getFeeData ⟨some 8, none, none, fun _ _ => 0, fun _ => 30, none⟩ = .ok ⟨8, 4⟩) ∧
    ((getBalance ⟨some 8, none, none, fun _ _ => 0, fun _ => 30, none⟩ "0xa" <
        10 + jsOrNat (some 10) 8 * jsOrNat (some 2) 21000 →
      validateFunds ⟨some 8, none, none, fun _ _ => 0, fun _ => 30, none⟩
          "0xa" 10 (some 2) (some 10) =
        .error (.insufficientFunds
          (getBalance ⟨some 8, none, none, fun _ _ => 0, fun _ => 30, none⟩ "0xa")
          (10 + jsOrNat (some 10) 8 * jsOrNat (some 2) 21000)
          (10 + jsOrNat (some 10) 8 * jsOrNat (some 2) 21000 -
            getBalance ⟨some 8, none, none, fun _ _ => 0, fun _ => 30, none⟩ "0xa"))) ∧
     (10 + jsOrNat (some 10) 8 * jsOrNat (some 2) 21000 ≤
        getBalance ⟨some 8, none, none, fun _ _ => 0, fun _ => 30, none⟩ "0xa" →
      validateFunds ⟨some 8, none, none, fun _ _ => 0, fun _ => 30, none⟩
          "0xa" 10 (some 2) (some 10) = .ok ()) ∧
     (∀ chainId keccak sign privateKey recipient,
      validateFunds ⟨some 8, none, none, fun _ _ => 0, fun _ => 30, none⟩
          "0xa" 10 none none ≠ .ok () →
      "eth_sendRawTransaction" ∉
        (extSendEth ⟨some 8, none, none, fun _ _ => 0, fun _ => 30, none⟩
          chainId keccak sign privateKey "0xa" recipient 10).2)) :=
  ⟨rfl, validateFunds_gate _ "0xa" 10 (some 2) (some 10) ⟨8, 4⟩ rfl⟩

/-! ## Session authentication store (`WalletAuthStore.ts`, heartbeat variant)

The Zustand store state and the `sessionStorage` entries it reads.  String
and number truthiness follow JavaScript: `null`, the empty string and `0`
are falsy. -/

/-- JavaScript truthiness of a nullable string: `null` and `""` are falsy. -/
def truthyStr : Option String → Bool
  | some s => s ≠ ""
  | none => false

/-- JavaScript truthiness of a nullable number: `null` and `0` are falsy. -/
def truthyNat : Option Nat → Bool
  | some n => n ≠ 0
  | none => false

/-- In-memory store state persisted by Zustand. -/
structure StoreState where
  address : Option String
  isAuthenticated : Bool
  sessionId : Option String
  sessionStartTime : Option Nat
deriving DecidableEq, Repr

/-- Ephemeral `sessionStorage` entries: `wallet-session-id`,
`wallet-session-heartbeat` (a decimal timestamp string, modelled as the
parsed number) and `wallet-page-load`. -/
structure SessionStorage where
  storedSessionId : Option String
  lastHeartbeat : Option Nat
  pageLoadFlag : Option String
deriving DecidableEq, Repr

/-- Source `createSession`: writes the fresh session id, the current heartbeat and
the page-load flag to `sessionStorage`, and sets the in-memory state. -/
def createSession (address sessionId : String) (now : Nat) :
    StoreState × SessionStorage :=
  (⟨some address, true, some sessionId, some now⟩,
   ⟨some sessionId, some now, some "true"⟩)

/-- Source `isFullyAuthenticated`: all four in-memory fields truthy. -/
def isFullyAuthenticated (s : StoreState) : Bool :=
  s.isAuthenticated && truthyStr s.address && truthyStr s.sessionId &&
    truthyNat s.sessionStartTime

/-- The `set(...)` performed by every failing `hasValidSession` storage
check: clears `isAuthenticated`, `sessionId` and `sessionStartTime`. -/
def clearSessionFields (s : StoreState) : StoreState :=
  { s with isAuthenticated := false, sessionId := none, sessionStartTime := none }

/-- Source `hasValidSession` (browser path): the in-memory guard, then the
browser-closed check, the 30000 ms heartbeat-staleness check, and the
session-id comparison; each failing storage check clears the in-memory
session fields.  Returns the verdict with the updated in-memory state. -/
def hasValidSession (s : StoreState) (ss : SessionStorage) (now : Nat) :
    Bool × StoreState :=
  if ¬ (s.isAuthenticated && truthyStr s.address && truthyStr s.sessionId &&
        truthyNat s.sessionStartTime) then
    (false, s)
  else if ¬ truthyStr ss.storedSessionId ∧ ¬ truthyStr ss.pageLoadFlag then
    (false, clearSessionFields s)
  else if ss.lastHeartbeat.isSome ∧ now - ss.lastHeartbeat.getD 0 > 30000 then
    (false, clearSessionFields s)
  else if truthyStr ss.storedSessionId ∧ ss.storedSessionId ≠ s.sessionId then
    (false, clearSessionFields s)
  else
    (true, s)

/-- C9: a freshly created session is valid when checked at creation time;
once the stored heartbeat is more than the 30000 ms timeout old with no
refresh, `hasValidSession` returns `false`, that same check clears the
in-memory session fields (`isAuthenticated`, `sessionId`,
`sessionStartTime`), and `isFullyAuthenticated` on the resulting state is
`false`. -/
theorem session_lifecycle (addr sid : String) (t now : Nat)
    (haddr : addr ≠ "") (hsid : sid ≠ "") (ht : t ≠ 0) (hstale : now - t > 30000) :
    (hasValidSession (createSession addr sid t).1 (createSession addr sid t).2 t).1 = true ∧
    (hasValidSession (createSession addr sid t).1 (createSession addr sid t).2 now).1 = false ∧
    (hasValidSession (createSession addr sid t).1 (createSession addr sid t).2 now).2 =
      clearSessionFields (createSession addr sid t).1 ∧
    isFullyAuthenticated
      (hasValidSession (createSession addr sid t).1 (createSession addr sid t).2 now).2 =
      false := by
  refine ⟨?_, ?_, ?_, ?_⟩ <;>
    simp [hasValidSession, createSession, truthyStr, truthyNat, haddr, hsid, ht,
      clearSessionFields, isFullyAuthenticated, hstale, Nat.not_lt.mpr]

/-- Witness for `session_lifecycle` at a concrete session. -/
theorem session_lifecycle_witness :
    ("0xabc" ≠ "" ∧ "sid1" ≠ "" ∧ (1000 : Nat) ≠ 0 ∧ 40000 - 1000 > 30000) ∧
    ((hasValidSession (createSession "0xabc" "sid1" 1000).1
        (createSession "0xabc" "sid1" 1000).2 1000).1 = true ∧
     (hasValidSession (createSession "0xabc" "sid1" 1000).1
        (createSession "0xabc" "sid1" 1000).2 40000).1 = false ∧
     (hasValidSession (createSession "0xabc" "sid1" 1000).1
        (createSession "0xabc" "sid1" 1000).2 40000).2 =
        clearSessionFields (createSession "0xabc" "sid1" 1000).1 ∧
     isFullyAuthenticated
       (hasValidSession (createSession "0xabc" "sid1" 1000).1
         (createSession "0xabc" "sid1" 1000).2 40000).2 = false) :=
  ⟨⟨by decide, by decide, by decide, by decide⟩,
   session_lifecycle "0xabc" "sid1" 1000 40000 (by decide) (by decide) (by decide) (by decide)⟩

/-! ## Durable wallet storage (`storeWalletData` and friends, wallet page)

The encrypted-mnemonic blob is idealized at this layer: decryption succeeds
exactly under the password used for encryption (the contract proved for
`decryptData` over the abstract AEAD below).  The storage helpers
themselves follow the source. -/

/-- An encrypted mnemonic blob, idealized as the pair it seals. -/
structure EncBlob where
  mnemonic : String
  password : String
deriving DecidableEq, Repr

/-- The durable `wallet_data` record. -/
structure StoredWallet where
  address : String
  encryptedMnemonic : EncBlob
  createdAt : Nat
  lastAccessAt : Nat
deriving DecidableEq, Repr

/-- Idealized `decryptData` at the storage layer. -/
def decryptBlob (blob : EncBlob) (password : String) : Option String :=
  if blob.password = password then some blob.mnemonic else none

/-- Source `storeWalletData`: encrypts and stores a fresh record, lowercasing the
address and stamping both timestamps with the current time. -/
def storeWalletData (mnemonic password address : String) (now : Nat) :
    Option StoredWallet :=
  some ⟨address.toLower, ⟨mnemonic, password⟩, now, now⟩

/-- Source `getStoredWalletData`: decrypts the stored record; on success refreshes
`lastAccessAt` in storage and returns the record and mnemonic; any failure
(no record, failed decryption, empty mnemonic) yields `null` and leaves
storage unchanged. -/
def getStoredWalletData (storage : Option StoredWallet) (password : String)
    (now : Nat) : Option (StoredWallet × String) × Option StoredWallet :=
  match storage with
  | none => (none, storage)
  | some wd =>
    match decryptBlob wd.encryptedMnemonic password with
    | none => (none, storage)
    | some m =>
      if m = "" then (none, storage)
      else
        let wd' := { wd with lastAccessAt := now }
        (some (wd', m), some wd')

/-- Source `updateWalletData`: re-encrypts under the supplied password, preserving
`createdAt` from the prior record when one exists. -/
def updateWalletData (storage : Option StoredWallet)
    (address mnemonic password : String) (now : Nat) : Option StoredWallet :=
  let createdAt := match storage with
    | some existing => existing.createdAt
    | none => now
  some ⟨address.toLower, ⟨mnemonic, password⟩, createdAt, now⟩

/-- Source `hasStoredWallet`. -/
def hasStoredWallet (storage : Option StoredWallet) : Bool := storage.isSome

/-- Source `validateWalletIntegrity`: a full decrypt attempt, `false` on any
failure, never raising. -/
def validateWalletIntegrity (storage : Option StoredWallet) (password : String)
    (now : Nat) : Bool × Option StoredWallet :=
  match getStoredWalletData storage password now with
  | (some _, st) => (true, st)
  | (none, st) => (false, st)

/-! ## Wallet facade (`WalletService.ts`)

The facade state combines the Zustand store, `sessionStorage`, the durable
record and the `CryptoWallet` key material (present or wiped).  Collaborator
outcomes that depend on I/O or entropy — mnemonic generation, encryption
failures — enter as explicit oracle arguments; `none` means the step does
not throw. -/

/-- Facade-visible state. -/
structure WalletState where
  store : StoreState
  session : SessionStorage
  storage : Option StoredWallet
  walletInitialized : Bool
deriving DecidableEq, Repr

/-- Operation result `{success, message}`. -/
structure WalletOpResult where
  success : Bool
  message : String
deriving DecidableEq, Repr

/-- Zustand `clearSession`: removes the three `sessionStorage` keys and
clears the in-memory session fields (the address is kept). -/
def storeClearSession (s : StoreState) : StoreState × SessionStorage :=
  ({ s with isAuthenticated := false, sessionId := none, sessionStartTime := none },
   ⟨none, none, none⟩)

/-- Zustand `clearAll`: clears `sessionStorage` and the whole in-memory
state, address included. -/
def storeClearAll : StoreState × SessionStorage :=
  (⟨none, false, none, none⟩, ⟨none, none, none⟩)

/-- The facade's private `clearSession`: wipes the `CryptoWallet` key
material and clears the Zustand session. -/
def svcClearSession (w : WalletState) : WalletState :=
  let (st, ssn) := storeClearSession w.store
  { w with walletInitialized := false, store := st, session := ssn }

/-- Source `createWallet`: clears the session, generates a wallet (the oracle
supplies the mnemonic and derived address, or the thrown message), stores
the encrypted record, creates a session; any exception clears the session
again before returning a failure result. -/
def createWallet (w : WalletState) (password : String)
    (generated : Except String (String × String)) (storeThrows : Option String)
    (sessionId : String) (now : Nat) : WalletOpResult × WalletState :=
  let w1 := svcClearSession w
  match generated with
  | .error msg => (⟨false, msg⟩, svcClearSession w1)
  | .ok (mnemonic, address) =>
    let w2 := { w1 with walletInitialized := true }
    match storeThrows with
    | some msg => (⟨false, msg⟩, svcClearSession w2)
    | none =>
      let w3 := { w2 with storage := storeWalletData mnemonic password address now }
      let (st, ssn) := createSession address sessionId now
      (⟨true, "Wallet created successfully"⟩, { w3 with store := st, session := ssn })

/-- Source `unlockWallet`: clears the session, validates integrity and decrypts
the record, re-derives the key material, creates a session; any exception
clears the session again. -/
def unlockWallet (w : WalletState) (password : String)
    (validM : String → Bool) (deriveAddr : String → String)
    (deriveThrows : Option String) (sessionId : String) (now : Nat) :
    WalletOpResult × WalletState :=
  let w1 := svcClearSession w
  let (isValid, st1) := validateWalletIntegrity w1.storage password now
  let w1 := { w1 with storage := st1 }
  if ¬ isValid then
    (⟨false, "Invalid password or corrupted wallet data"⟩, w1)
  else
    match getStoredWalletData w1.storage password now with
    | (none, st2) => (⟨false, "Wallet not found or invalid password"⟩, { w1 with storage := st2 })
    | (some (_, mnemonic), st2) =>
      let w2 := { w1 with storage := st2 }
      if mnemonic = "" ∨ ¬ validM mnemonic then
        (⟨false, "Invalid wallet data"⟩, w2)
      else
        match deriveThrows with
        | some msg => (⟨false, msg⟩, svcClearSession w2)
        | none =>
          let w3 := { w2 with walletInitialized := true }
          let (st, ssn) := createSession (deriveAddr mnemonic) sessionId now
          (⟨true, "Wallet unlocked successfully"⟩, { w3 with store := st, session := ssn })

/-- The part of `importWallet` after the duplicate check: derive the
address, write (or overwrite) the record, create the session. -/
def importWalletTail (w1 : WalletState) (mnemonic password : String)
    (deriveAddr : String → String) (updateThrows : Option String)
    (sessionId : String) (now : Nat) : WalletOpResult × WalletState :=
  let cleanMnemonic := mnemonic.trim
  let address := deriveAddr cleanMnemonic
  let w2 := { w1 with walletInitialized := true }
  match updateThrows with
  | some msg => (⟨false, msg⟩, svcClearSession w2)
  | none =>
    let w3 :=
      if hasStoredWallet w2.storage then
        { w2 with storage := updateWalletData w2.storage address cleanMnemonic password now }
      else
        { w2 with storage := storeWalletData cleanMnemonic password address now }
    let (st, ssn) := createSession address sessionId now
    (⟨true, "Wallet imported successfully"⟩, { w3 with store := st, session := ssn })

/-- Source `importWallet`: clears the session, validates the mnemonic, rejects only
when the supplied password decrypts an existing record to a different
mnemonic, then overwrites (preserving `createdAt`) or stores the record, and
creates a session; any exception clears the session again. -/
def importWallet (w : WalletState) (mnemonic password : String)
    (validM : String → Bool) (deriveAddr : String → String)
    (updateThrows : Option String) (sessionId : String) (now : Nat) :
    WalletOpResult × WalletState :=
  let w1 := svcClearSession w
  if ¬ validM mnemonic.trim then
    (⟨false, "Invalid mnemonic phrase"⟩, w1)
  else
    let existing :=
      if hasStoredWallet w1.storage then
        (getStoredWalletData w1.storage password now).1
      else none
    let w1 :=
      if hasStoredWallet w1.storage then
        { w1 with storage := (getStoredWalletData w1.storage password now).2 }
      else w1
    match existing with
    | some (_, existingMnemonic) =>
      if existingMnemonic ≠ "" ∧ existingMnemonic ≠ mnemonic.trim then
        (⟨false, "Different wallet exists"⟩, w1)
      else
        importWalletTail w1 mnemonic password deriveAddr updateThrows sessionId now
    | none =>
      importWalletTail w1 mnemonic password deriveAddr updateThrows sessionId now

/-- Source `changePassword`: requires authentication, validates the current
password, re-encrypts under the new password.  It clears no session state —
not before acting and not when the update throws. -/
def changePassword (w : WalletState) (currentPassword newPassword : String)
    (updateThrows : Option String) (now : Nat) : WalletOpResult × WalletState :=
  if ¬ isFullyAuthenticated w.store then
    (⟨false, "Authentication required"⟩, w)
  else
    match validateWalletIntegrity w.storage currentPassword now with
    | (false, st1) => (⟨false, "Current password is incorrect"⟩, { w with storage := st1 })
    | (true, st1) =>
      match getStoredWalletData st1 currentPassword now with
      | (none, st2) => (⟨false, "Current password is incorrect"⟩, { w with storage := st2 })
      | (some (walletData, mnemonic), st2) =>
        if mnemonic = "" then
          (⟨false, "Current password is incorrect"⟩, { w with storage := st2 })
        else
          match updateThrows with
          | some msg => (⟨false, msg⟩, { w with storage := st2 })
          | none =>
            (⟨true, "Password changed successfully"⟩,
             { w with storage :=
                updateWalletData st2 walletData.address mnemonic newPassword now })

/-- Source `deleteWallet`: clears all store state, deletes the durable record,
wipes the key material; when the storage deletion throws, the key material
is not wiped and no further clearing happens. -/
def deleteWallet (w : WalletState) (deleteThrows : Option String) :
    WalletOpResult × WalletState :=
  let (st, ssn) := storeClearAll
  let w1 := { w with store := st, session := ssn }
  match deleteThrows with
  | some msg => (⟨false, msg⟩, w1)
  | none =>
    let w2 := { w1 with storage := none, walletInitialized := false }
    (⟨true, "Wallet deleted successfully"⟩, w2)

/-! ## Claims C5 and C10 -/

/-- In-memory session and key material fully cleared. -/
def sessionCleared (w : WalletState) : Prop :=
  w.store.isAuthenticated = false ∧ w.store.sessionId = none ∧
    w.store.sessionStartTime = none ∧ w.session = ⟨none, none, none⟩ ∧
    w.walletInitialized = false

/-- C5 counterexample: `changePassword` on an authenticated wallet whose
re-encryption step throws returns a failure result while the in-memory
session survives untouched (`isAuthenticated` is still `true`), so not every
mutating operation clears session state first and again on exception. -/
theorem changePassword_keeps_session :
    (changePassword
      ⟨⟨some "0xabc", true, some "sid", some 5⟩, ⟨some "sid", some 5, some "true"⟩,
        some ⟨"0xabc", ⟨"w1 w2 w3", "pw"⟩, 1, 1⟩, true⟩
      "pw" "npw" (some "update failed") 9).1.success = false ∧
    (changePassword
      ⟨⟨some "0xabc", true, some "sid", some 5⟩, ⟨some "sid", some 5, some "true"⟩,
        some ⟨"0xabc", ⟨"w1 w2 w3", "pw"⟩, 1, 1⟩, true⟩
      "pw" "npw" (some "update failed") 9).2.store.isAuthenticated = true := by
  constructor <;> rfl

/-- C5 (amended): `createWallet`, `unlockWallet` and `importWallet` clear the
in-memory session first and, on any failure, return with session and key
material cleared; `changePassword` leaves the in-memory session and key
material untouched in every outcome; `deleteWallet` clears the store state up
front, but when the storage deletion throws it returns a failure without
wiping the key material. -/
theorem mutating_ops_clearing :
    (∀ w password generated storeThrows sid now,
      (createWallet w password generated storeThrows sid now).1.success = false →
      sessionCleared (createWallet w password generated storeThrows sid now).2) ∧
    (∀ w password validM deriveAddr deriveThrows sid now,
      (unlockWallet w password validM deriveAddr deriveThrows sid now).1.success = false →
      sessionCleared (unlockWallet w password validM deriveAddr deriveThrows sid now).2) ∧
    (∀ w m password validM deriveAddr updateThrows sid now,
      (importWallet w m password validM deriveAddr updateThrows sid now).1.success = false →
      sessionCleared (importWallet w m password validM deriveAddr updateThrows sid now).2) ∧
    (∀ w cp np updateThrows now,
      (changePassword w cp np updateThrows now).2.store = w.store ∧
      (changePassword w cp np updateThrows now).2.session = w.session ∧
      (changePassword w cp np updateThrows now).2.walletInitialized = w.walletInitialized) ∧
    (∀ w deleteThrows,
      (deleteWallet w deleteThrows).2.store = (⟨none, false, none, none⟩ : StoreState) ∧
      (∀ msg, deleteThrows = some msg →
        (deleteWallet w deleteThrows).2.walletInitialized = w.walletInitialized)) := by
  refine ⟨?_, ?_, ?_, ?_, ?_⟩
  · intro w password generated storeThrows sid now hfail
    unfold createWallet at *
    rcases generated with msg | ⟨mnemonic, address⟩
    · exact ⟨rfl, rfl, rfl, rfl, rfl⟩
    · rcases storeThrows with _ | msg
      · simp [createSession] at hfail
      · exact ⟨rfl, rfl, rfl, rfl, rfl⟩
  · intro w password validM deriveAddr deriveThrows sid now hfail
    unfold unlockWallet at *
    rcases hvi : validateWalletIntegrity (svcClearSession w).storage password now
      with ⟨valid, st1⟩
    simp only [hvi] at hfail ⊢
    by_cases hv : valid
    · simp only [hv, not_true, if_neg, reduceIte] at hfail ⊢
      rcases hg : getStoredWalletData st1 password now with ⟨res, st2⟩
      rcases res with _ | ⟨wd, mnemonic⟩ <;> simp only [hg] at hfail ⊢
      · exact ⟨rfl, rfl, rfl, rfl, rfl⟩
      · by_cases hm : mnemonic = "" ∨ ¬ validM mnemonic
        · simp only [hm, reduceIte]
          exact ⟨rfl, rfl, rfl, rfl, rfl⟩
        · simp only [hm, reduceIte] at hfail ⊢
          rcases deriveThrows with _ | msg
          · simp [createSession] at hfail
          · exact ⟨rfl, rfl, rfl, rfl, rfl⟩
    · simp only [hv, not_false_eq_true, reduceIte]
      exact ⟨rfl, rfl, rfl, rfl, rfl⟩
  · intro w m password validM deriveAddr updateThrows sid now hfail
    unfold importWallet at *
    by_cases hvm : validM m.trim
    · simp only [hvm, not_true, reduceIte] at hfail ⊢
      have tail : ∀ w1 : WalletState,
          (importWalletTail w1 m password deriveAddr updateThrows sid now).1.success = false →
          sessionCleared (importWalletTail w1 m password deriveAddr updateThrows sid now).2 := by
        intro w1 hf
        unfold importWalletTail at *
        rcases updateThrows with _ | msg
        · simp [createSession] at hf
        · exact ⟨rfl, rfl, rfl, rfl, rfl⟩
      revert hfail
      split
      · split
        · intro _
          refine ⟨?_, ?_, ?_, ?_, ?_⟩ <;> (split <;> rfl)
        · exact fun hf => tail _ hf
      · exact fun hf => tail _ hf
    · simp only [hvm, not_false_eq_true, reduceIte]
      exact ⟨rfl, rfl, rfl, rfl, rfl⟩
  · intro w cp np updateThrows now
    unfold changePassword
    repeat' split
    all_goals exact ⟨rfl, rfl, rfl⟩
  · intro w deleteThrows
    unfold deleteWallet storeClearAll
    rcases deleteThrows with _ | msg
    · exact ⟨rfl, fun msg h => by cases h⟩
    · exact ⟨rfl, fun m h => rfl⟩

/-- Witness for `mutating_ops_clearing` at concrete failing operations. -/
theorem mutating_ops_clearing_witness :
    ((createWallet ⟨⟨none, false, none, none⟩, ⟨none, none, none⟩, none, false⟩
        "pw" (.error "entropy failure") none "sid" 3).1.success = false ∧
      sessionCleared (createWallet ⟨⟨none, false, none, none⟩, ⟨none, none, none⟩, none, false⟩
        "pw" (.error "entropy failure") none "sid" 3).2) ∧
    ((changePassword ⟨⟨none, false, none, none⟩, ⟨none, none, none⟩, none, false⟩
        "a" "b" none 3).2.store = (⟨none, false, none, none⟩ : StoreState)) := by
  refine ⟨⟨by decide, ?_⟩, ?_⟩
  · exact mutating_ops_clearing.1 _ "pw" (.error "entropy failure") none "sid" 3 (by decide)
  · exact (mutating_ops_clearing.2.2.2.1 ⟨⟨none, false, none, none⟩, ⟨none, none, none⟩,
      none, false⟩ "a" "b" none 3).1

/-- C10: with a wallet record already stored, `importWallet` under a
password that does not decrypt the existing record succeeds and silently
overwrites the record with the new mnemonic encrypted under the supplied
password, preserving only the prior `createdAt`; the "different wallet
already exists" rejection is reached only when the supplied password
decrypts the existing record to a different (nonempty) mnemonic. -/
theorem importWallet_overwrite_semantics (w : WalletState) (m password : String)
    (validM : String → Bool) (deriveAddr : String → String) (sid : String)
    (now : Nat) (wd : StoredWallet) (hstored : w.storage = some wd)
    (hvalid : validM m.trim = true) :
    (wd.encryptedMnemonic.password ≠ password →
      (importWallet w m password validM deriveAddr none sid now).1.success = true ∧
      (importWallet w m password validM deriveAddr none sid now).2.storage =
        some ⟨(deriveAddr m.trim).toLower, ⟨m.trim, password⟩, wd.createdAt, now⟩) ∧
    ((importWallet w m password validM deriveAddr none sid now).1 =
        ⟨false, "Different wallet exists"⟩ →
      wd.encryptedMnemonic.password = password ∧
      wd.encryptedMnemonic.mnemonic ≠ m.trim ∧
      wd.encryptedMnemonic.mnemonic ≠ "") := by
  have hst : (svcClearSession w).storage = some wd := hstored
  constructor
  · intro hpw
    have hdec : decryptBlob wd.encryptedMnemonic password = none := by
      unfold decryptBlob
      rw [if_neg hpw]
    have hget : getStoredWalletData (some wd) password now = (none, some wd) := by
      simp [getStoredWalletData, hdec]
    unfold importWallet
    dsimp only
    rw [hst]
    simp only [hvalid, not_true, reduceIte, hasStoredWallet, Option.isSome_some, hget]
    unfold importWalletTail
    simp [hasStoredWallet, updateWalletData]
  · intro hrej
    unfold importWallet at hrej
    dsimp only at hrej
    rw [hst] at hrej
    simp only [hvalid, not_true, reduceIte, hasStoredWallet, Option.isSome_some] at hrej
    rcases hdec : decryptBlob wd.encryptedMnemonic password with _ | dm
    · have hget : getStoredWalletData (some wd) password now = (none, some wd) := by
        simp [getStoredWalletData, hdec]
      rw [hget] at hrej
      simp [importWalletTail, hasStoredWallet] at hrej
    · have hpw : wd.encryptedMnemonic.password = password := by
        unfold decryptBlob at hdec
        by_cases h : wd.encryptedMnemonic.password = password
        · exact h
        · rw [if_neg h] at hdec
          cases hdec
      have hdm2 : wd.encryptedMnemonic.mnemonic = dm := by
        unfold decryptBlob at hdec
        rw [if_pos hpw] at hdec
        cases hdec
        rfl
      by_cases hdm : dm = ""
      · have hget : getStoredWalletData (some wd) password now = (none, some wd) := by
          simp [getStoredWalletData, hdec, hdm]
        rw [hget] at hrej
        simp [importWalletTail, hasStoredWallet] at hrej
      · have hget : getStoredWalletData (some wd) password now =
            (some ({ wd with lastAccessAt := now }, dm),
             some { wd with lastAccessAt := now }) := by
          simp [getStoredWalletData, hdec, hdm]
        rw [hget] at hrej
        by_cases hcond : dm ≠ "" ∧ dm ≠ m.trim
        · exact ⟨hpw, hdm2 ▸ hcond.2, hdm2 ▸ hcond.1⟩
        · simp [importWalletTail, hasStoredWallet, hcond] at hrej

/-- Witness for `importWallet_overwrite_semantics` at a concrete state whose
stored record was encrypted under a different password. -/
theorem importWallet_overwrite_witness :
    ((⟨⟨some "0xold", true, some "s", some 3⟩, ⟨some "s", some 3, some "true"⟩,
        some ⟨"0xold", ⟨"old words", "oldpw"⟩, 7, 7⟩, true⟩ : WalletState).storage =
      some ⟨"0xold", ⟨"old words", "oldpw"⟩, 7, 7⟩ ∧
     (fun (_ : String) => true) "new words".trim = true) ∧
    (EncBlob.password ⟨"old words", "oldpw"⟩ ≠ "newpw" →
      (importWallet ⟨⟨some "0xold", true, some "s", some 3⟩, ⟨some "s", some 3, some "true"⟩,
          some ⟨"0xold", ⟨"old words", "oldpw"⟩, 7, 7⟩, true⟩
        "new words" "newpw" (fun _ => true) (fun _ => "0xNEW") none "sid2" 9).1.success = true ∧
      (importWallet ⟨⟨some "0xold", true, some "s", some 3⟩, ⟨some "s", some 3, some "true"⟩,
          some ⟨"0xold", ⟨"old words", "oldpw"⟩, 7, 7⟩, true⟩
        "new words" "newpw" (fun _ => true) (fun _ => "0xNEW") none "sid2" 9).2.storage =
        some ⟨"0xNEW".toLower, ⟨"new words".trim, "newpw"⟩, 7, 9⟩) :=
  ⟨⟨rfl, rfl⟩,
   (importWallet_overwrite_semantics _ "new words" "newpw" (fun _ => true)
     (fun _ => "0xNEW") "sid2" 9 ⟨"0xold", ⟨"old words", "oldpw"⟩, 7, 7⟩ rfl rfl).1⟩

/-! ## Claim C6: the send gate

`WalletService.sendEth` / `sendToken`: `requireAuth` (full authentication),
then `ensureWalletReady` (valid session), both before any RPC.  The third
component of the result is the list of RPC methods called.  `sendToken`'s
network body is a collaborator; its outcome and calls enter as oracle
arguments. -/

/-- Source `WalletService.sendEth`. -/
def walletSendEth (w : WalletState) (now : Nat) (o : RpcOracle) (chainId : Nat)
    (keccak : List Nat → List Nat) (sign : List Nat → List Nat → EcdsaSig)
    (privateKey : List Nat) (fromAddress : String) (recipient : List Nat)
    (value : Nat) : WalletOpResult × WalletState × List String :=
  if ¬ isFullyAuthenticated w.store then
    (⟨false, "Authentication required"⟩, w, [])
  else if ¬ (hasValidSession w.store w.session now).1 then
    (⟨false, "Wallet not ready - please enter your password first"⟩,
     { w with store := (hasValidSession w.store w.session now).2 }, [])
  else if getBalance o fromAddress = 0 then
    -- zero balance: a second direct eth_getBalance read, then a failure
    -- result carrying the diagnostic message
    (⟨false, "Wallet shows zero balance"⟩, w, ["eth_getBalance", "eth_getBalance"])
  else
    match validateFunds o fromAddress value none none with
    | .error _ =>
      (⟨false, "Insufficient funds"⟩, w, "eth_getBalance" :: validateFundsCalls o)
    | .ok () =>
      match extSendEth o chainId keccak sign privateKey fromAddress recipient value with
      | (.ok _txHash, calls) =>
        (⟨true, "Transaction sent successfully"⟩, w,
         "eth_getBalance" :: (validateFundsCalls o ++ calls))
      | (.error _, calls) =>
        (⟨false, "Failed to send transaction"⟩, w,
         "eth_getBalance" :: (validateFundsCalls o ++ calls))

/-- Source `WalletService.sendToken`: the same two gates in front of the token
transfer body. -/
def walletSendToken (w : WalletState) (now : Nat)
    (bodyResult : Except TxError String) (bodyCalls : List String) :
    WalletOpResult × WalletState × List String :=
  if ¬ isFullyAuthenticated w.store then
    (⟨false, "Authentication required"⟩, w, [])
  else if ¬ (hasValidSession w.store w.session now).1 then
    (⟨false, "Wallet not ready - please enter your password first"⟩,
     { w with store := (hasValidSession w.store w.session now).2 }, [])
  else
    match bodyResult with
    | .ok _ => (⟨true, "Token transaction sent successfully"⟩, w, bodyCalls)
    | .error _ => (⟨false, "Failed to send token"⟩, w, bodyCalls)

/-- C6 counterexample: in a state with no valid session, `sendEth` fails
with the message `"Authentication required"`, not
`"not authenticated"` as the claim states. -/
theorem sendEth_gate_message :
    (hasValidSession (⟨none, false, none, none⟩ : StoreState) ⟨none, none, none⟩ 0).1 =
      false ∧
    (walletSendEth ⟨⟨none, false, none, none⟩, ⟨none, none, none⟩, none, false⟩ 0
      ⟨none, none, none, fun _ _ => 0, fun _ => 0, none⟩ 1 (fun l => l)
      (fun _ _ => ⟨1, 1, 0⟩) [] "0xa" [] 0).1.message = "Authentication required" ∧
    "Authentication required" ≠ "not authenticated" := by
  refine ⟨rfl, rfl, by decide⟩

/-- C6 (amended): whenever `hasValidSession` is `false`, both send-style
operations return `{success := false}` with one of the two gate messages
(`"Authentication required"` when full authentication is missing, otherwise
`"Wallet not ready - please enter your password first"`), and make no RPC
call. -/
theorem send_gate (w : WalletState) (now : Nat) (o : RpcOracle) (chainId : Nat)
    (keccak : List Nat → List Nat) (sign : List Nat → List Nat → EcdsaSig)
    (privateKey : List Nat) (fromAddress : String) (recipient : List Nat)
    (value : Nat) (bodyResult : Except TxError String) (bodyCalls : List String)
    (hinvalid : (hasValidSession w.store w.session now).1 = false) :
    ((walletSendEth w now o chainId keccak sign privateKey fromAddress recipient
        value).1.success = false ∧
     (walletSendEth w now o chainId keccak sign privateKey fromAddress recipient
        value).2.2 = [] ∧
     ((walletSendEth w now o chainId keccak sign privateKey fromAddress recipient
        value).1.message = "Authentication required" ∨
      (walletSendEth w now o chainId keccak sign privateKey fromAddress recipient
        value).1.message = "Wallet not ready - please enter your password first")) ∧
    ((walletSendToken w now bodyResult bodyCalls).1.success = false ∧
     (walletSendToken w now bodyResult bodyCalls).2.2 = [] ∧
     ((walletSendToken w now bodyResult bodyCalls).1.message =
        "Authentication required" ∨
      (walletSendToken w now bodyResult bodyCalls).1.message =
        "Wallet not ready - please enter your password first")) := by
  unfold walletSendEth walletSendToken
  by_cases ha : isFullyAuthenticated w.store
  · simp [ha, hinvalid]
  · simp [ha]

/-- Witness for `send_gate` at a concrete unauthenticated state. -/
theorem send_gate_witness :
    ((hasValidSession (⟨some "0xa", true, some "s", some 2⟩ : StoreState)
        ⟨none, none, none⟩ 99999).1 = false) ∧
    (((walletSendEth ⟨⟨some "0xa", true, some "s", some 2⟩, ⟨none, none, none⟩, none, true⟩
        99999 ⟨none, none, none, fun _ _ => 0, fun _ => 5, none⟩ 1 (fun l => l)
        (fun _ _ => ⟨1, 1, 0⟩) [7] "0xa" [8] 1).1.success = false ∧
      (walletSendEth ⟨⟨some "0xa", true, some "s", some 2⟩, ⟨none, none, none⟩, none, true⟩
        99999 ⟨none, none, none, fun _ _ => 0, fun _ => 5, none⟩ 1 (fun l => l)
        (fun _ _ => ⟨1, 1, 0⟩) [7] "0xa" [8] 1).2.2 = [] ∧
      ((walletSendEth ⟨⟨some "0xa", true, some "s", some 2⟩, ⟨none, none, none⟩, none, true⟩
        99999 ⟨none, none, none, fun _ _ => 0, fun _ => 5, none⟩ 1 (fun l => l)
        (fun _ _ => ⟨1, 1, 0⟩) [7] "0xa" [8] 1).1.message = "Authentication required" ∨
       (walletSendEth ⟨⟨some "0xa", true, some "s", some 2⟩, ⟨none, none, none⟩, none, true⟩
        99999 ⟨none, none, none, fun _ _ => 0, fun _ => 5, none⟩ 1 (fun l => l)
        (fun _ _ => ⟨1, 1, 0⟩) [7] "0xa" [8] 1).1.message =
          "Wallet not ready - please enter your password first")) ∧
     ((walletSendToken ⟨⟨some "0xa", true, some "s", some 2⟩, ⟨none, none, none⟩, none, true⟩
        99999 (.ok "0xhash") ["eth_call"]).1.success = false ∧
      (walletSendToken ⟨⟨some "0xa", true, some "s", some 2⟩, ⟨none, none, none⟩, none, true⟩
        99999 (.ok "0xhash") ["eth_call"]).2.2 = [] ∧
      ((walletSendToken ⟨⟨some "0xa", true, some "s", some 2⟩, ⟨none, none, none⟩, none, true⟩
        99999 (.ok "0xhash") ["eth_call"]).1.message = "Authentication required" ∨
       (walletSendToken ⟨⟨some "0xa", true, some "s", some 2⟩, ⟨none, none, none⟩, none, true⟩
        99999 (.ok "0xhash") ["eth_call"]).1.message =
          "Wallet not ready - please enter your password first"))) :=
  ⟨by decide,
   send_gate ⟨⟨some "0xa", true, some "s", some 2⟩, ⟨none, none, none⟩, none, true⟩
     99999 ⟨none, none, none, fun _ _ => 0, fun _ => 5, none⟩ 1 (fun l => l)
     (fun _ _ => ⟨1, 1, 0⟩) [7] "0xa" [8] 1 (.ok "0xhash") ["eth_call"] (by decide)⟩

/-! ## Encryption module (`src/lib/utils/encryption.ts`)

`encryptData` / `decryptData` over an abstract AEAD cipher (AES-256-GCM), an
abstract memory-hard KDF (Argon2id), abstract Base64 codecs (`btoa` /
`atob`) and abstract text codecs (`TextEncoder` / `TextDecoder`).  The blob
layout `salt(16) ‖ iv(12) ‖ ciphertext` and the single-error catch follow
the source; the primitives' contracts enter as hypotheses. -/

/-- An AEAD cipher: encryption and authenticated decryption under a key and
a nonce. -/
structure AEAD where
  enc : List Nat → List Nat → List Nat → List Nat
  dec : List Nat → List Nat → List Nat → Option (List Nat)

/-- The one error message of `decryptData` — wrong password and corruption
are deliberately indistinguishable. -/
def decErrMsg : String := "Decryption failed. Incorrect password or corrupted data."

/-- Source `encryptData`: KDF key from password and salt, AEAD-seal the encoded
plaintext under a fresh IV, emit Base64 of `salt ‖ iv ‖ ciphertext`. -/
def encryptData (A : AEAD) (kdf : String → List Nat → List Nat)
    (b64encode : List Nat → String) (txtEncode : String → List Nat)
    (salt iv : List Nat) (data password : String) : String :=
  let key := kdf password salt
  let encrypted := A.enc key iv (txtEncode data)
  b64encode (salt ++ iv ++ encrypted)

/-- Source `decryptData`: reject empty input, decode Base64, reject blobs shorter
than 29 bytes, split off salt and IV, re-derive the key and open the AEAD
payload; every failure path raises the single `decErrMsg` error. -/
def decryptData (A : AEAD) (kdf : String → List Nat → List Nat)
    (b64decode : String → List Nat) (txtDecode : List Nat → String)
    (encryptedData password : String) : Except String String :=
  if encryptedData = "" then .error decErrMsg
  else
    let combined := b64decode encryptedData
    if combined.length < 29 then .error decErrMsg
    else
      let salt := combined.take 16
      let iv := (combined.drop 16).take 12
      let ciphertext := combined.drop 28
      let key := kdf password salt
      match A.dec key iv ciphertext with
      | some pt => .ok (txtDecode pt)
      | none => .error decErrMsg

/-- C3: decrypting an encryption under the same password returns the
plaintext; under any other password (the KDF being collision-free at this
salt and the AEAD authenticating its key) it fails with `decErrMsg`; and
`decryptData` produces no error other than `decErrMsg` on any blob, so a
wrong password and a corrupted blob are indistinguishable from the error. -/
theorem encryption_roundtrip (A : AEAD) (kdf : String → List Nat → List Nat)
    (b64encode : List Nat → String) (b64decode : String → List Nat)
    (txtEncode : String → List Nat) (txtDecode : List Nat → String)
    (salt iv : List Nat) (p pw pw2 : String)
    (hsalt : salt.length = 16) (hiv : iv.length = 12)
    (hct : A.enc (kdf pw salt) iv (txtEncode p) ≠ [])
    (hb64 : b64decode (encryptData A kdf b64encode txtEncode salt iv p pw) =
      salt ++ iv ++ A.enc (kdf pw salt) iv (txtEncode p))
    (hne : encryptData A kdf b64encode txtEncode salt iv p pw ≠ "")
    (htxt : txtDecode (txtEncode p) = p)
    (hdec : A.dec (kdf pw salt) iv (A.enc (kdf pw salt) iv (txtEncode p)) =
      some (txtEncode p))
    (hkdf : pw2 ≠ pw → kdf pw2 salt ≠ kdf pw salt)
    (hauth : ∀ k, k ≠ kdf pw salt →
      A.dec k iv (A.enc (kdf pw salt) iv (txtEncode p)) = none) :
    decryptData A kdf b64decode txtDecode
      (encryptData A kdf b64encode txtEncode salt iv p pw) pw = .ok p ∧
    (pw2 ≠ pw → decryptData A kdf b64decode txtDecode
      (encryptData A kdf b64encode txtEncode salt iv p pw) pw2 = .error decErrMsg) ∧
    (∀ blob pw0, (∃ q, decryptData A kdf b64decode txtDecode blob pw0 = .ok q) ∨
      decryptData A kdf b64decode txtDecode blob pw0 = .error decErrMsg) := by
  set ct := A.enc (kdf pw salt) iv (txtEncode p) with hctdef
  have hlen : (salt ++ iv ++ ct).length = 28 + ct.length := by
    simp [hsalt, hiv]
    omega
  have hct1 : 1 ≤ ct.length := by
    cases hc : ct with
    | nil => exact absurd hc hct
    | cons a l => simp
  have htake : (salt ++ iv ++ ct).take 16 = salt := by
    rw [List.append_assoc, ← hsalt]
    exact List.take_left salt (iv ++ ct)
  have hdrop : (salt ++ iv ++ ct).drop 16 = iv ++ ct := by
    rw [List.append_assoc, ← hsalt]
    exact List.drop_left salt (iv ++ ct)
  have hivtake : ((salt ++ iv ++ ct).drop 16).take 12 = iv := by
    rw [hdrop, ← hiv]
    exact List.take_left iv ct
  have hctdrop : (salt ++ iv ++ ct).drop 28 = ct := by
    have h28 : (salt ++ iv).length = 28 := by simp [hsalt, hiv]
    rw [← h28]
    exact List.drop_left (salt ++ iv) ct
  refine ⟨?_, ?_, ?_⟩
  · unfold decryptData
    rw [if_neg hne]
    dsimp only
    rw [hb64, if_neg (by omega), htake, hivtake, hctdrop, hdec]
    simp only [htxt]
  · intro hpw2
    unfold decryptData
    rw [if_neg hne]
    dsimp only
    rw [hb64, if_neg (by omega), htake, hivtake, hctdrop,
      hauth (kdf pw2 salt) (hkdf hpw2)]
  · intro blob pw0
    unfold decryptData
    split
    · exact Or.inr rfl
    · dsimp only
      split
      · exact Or.inr rfl
      · split
        · exact Or.inl ⟨_, rfl⟩
        · exact Or.inr rfl

/-- Witness for `encryption_roundtrip`: a concrete toy AEAD (key prepended
to the plaintext, authenticated by comparing the leading key bytes), a
length-based KDF, and the passwords `"aa"` / `"b"`. -/
theorem encryption_roundtrip_witness :
    ((List.replicate 16 0 : List Nat).length = 16 ∧
     (List.replicate 12 0 : List Nat).length = 12 ∧
     ("b" : String) ≠ "aa") ∧
    (decryptData ⟨fun k _ pt => k ++ pt, fun k _ c => if c.take 1 = k then some (c.drop 1) else none⟩
        (fun pw _ => [pw.length]) (fun _ => List.replicate 16 0 ++ List.replicate 12 0 ++ [2, 5])
        (fun _ => "hi")
        (encryptData ⟨fun k _ pt => k ++ pt, fun k _ c => if c.take 1 = k then some (c.drop 1) else none⟩
          (fun pw _ => [pw.length]) (fun _ => "blob") (fun _ => [5])
          (List.replicate 16 0) (List.replicate 12 0) "hi" "aa") "aa" = .ok "hi" ∧
     (("b" : String) ≠ "aa" →
      decryptData ⟨fun k _ pt => k ++ pt, fun k _ c => if c.take 1 = k then some (c.drop 1) else none⟩
        (fun pw _ => [pw.length]) (fun _ => List.replicate 16 0 ++ List.replicate 12 0 ++ [2, 5])
        (fun _ => "hi")
        (encryptData ⟨fun k _ pt => k ++ pt, fun k _ c => if c.take 1 = k then some (c.drop 1) else none⟩
          (fun pw _ => [pw.length]) (fun _ => "blob") (fun _ => [5])
          (List.replicate 16 0) (List.replicate 12 0) "hi" "aa") "b" = .error decErrMsg) ∧
     (∀ blob pw0,
      (∃ q, decryptData ⟨fun k _ pt => k ++ pt, fun k _ c => if c.take 1 = k then some (c.drop 1) else none⟩
        (fun pw _ => [pw.length]) (fun _ => List.replicate 16 0 ++ List.replicate 12 0 ++ [2, 5])
        (fun _ => "hi") blob pw0 = .ok q) ∨
      decryptData ⟨fun k _ pt => k ++ pt, fun k _ c => if c.take 1 = k then some (c.drop 1) else none⟩
        (fun pw _ => [pw.length]) (fun _ => List.replicate 16 0 ++ List.replicate 12 0 ++ [2, 5])
        (fun _ => "hi") blob pw0 = .error decErrMsg)) :=
  ⟨⟨by decide, by decide, by decide⟩,
   encryption_roundtrip
     ⟨fun k _ pt => k ++ pt, fun k _ c => if c.take 1 = k then some (c.drop 1) else none⟩
     (fun pw _ => [pw.length]) (fun _ => "blob")
     (fun _ => List.replicate 16 0 ++ List.replicate 12 0 ++ [2, 5])
     (fun _ => [5]) (fun _ => "hi")
     (List.replicate 16 0) (List.replicate 12 0) "hi" "aa" "b"
     (by decide) (by decide) (by decide) (by decide) (by decide) rfl (by decide)
     (fun _ => by decide)
     (fun k hk => if_neg (fun h => hk h.symm))⟩

end CryptoWallet
